import Mathlib

/-!
Verification of the amity-ui input-routing and focus-navigation core.

This file is a shallow embedding of the data model and operations of the
`amity-ui` repository (`src/input.rs`, `src/tree.rs`, `src/context.rs`,
`src/action.rs`, `src/node.rs`, `src/style.rs`), together with proofs of
the specification's claims about them.

Conventions: machine integers (`usize`, `i32`, `u8`) are modelled as
`Nat`/`Int`; none of the modelled operations can overflow, so no wrapping
is needed. Code that panics (`unimplemented!`) is modelled with `Except`.
Trait objects (`Box<dyn Focusable<B>>`, `Box<dyn IO<B>>`) and closures are
modelled as numeric handles. `f32` quantities (squared distances, layout
boxes) are modelled as rationals. Operations that the Rust sources only
declare (trait methods and fields whose behaviour is fixed by the
documentation, with no body yet under `src/`) are modelled from the
specification; each such definition carries a doc comment starting with
"Modelled from the spec".
-/

namespace AmityUI

/-- Source type `InputStrokeItem<B>` from `src/input.rs`: a keyboard key,
mouse button or gamepad button. The backend-specific key types are
modelled as `Nat` codes. -/
inductive InputStrokeItem where
  | keyboardKey (key : Nat)
  | mouseButton (button : Nat)
  | gamepadButton (button : Nat)
  deriving DecidableEq

/-- Source type `InputStroke<B>` from `src/input.rs`: a key or button
combination, stored as the `input` vector. -/
structure InputStroke where
  input : List InputStrokeItem
  deriving DecidableEq

/-- Source type `InputActionID` from `src/input.rs`. -/
structure InputActionID where
  id : Nat
  deriving DecidableEq

/-- Source type `InputBinding<B>` from `src/input.rs`: binding of an input
stroke item to an input action. -/
structure InputBinding where
  action : InputActionID
  trigger : InputStrokeItem
  deriving DecidableEq

/-- Source type `InputLayer<B>` from `src/input.rs`: groups input bindings
by common key modifiers. -/
structure InputLayer where
  modifiers : InputStroke
  bindings : List InputBinding
  deriving DecidableEq

/-- Source function `InputLayer::eq` (`impl PartialEq for InputLayer<B>`,
`src/input.rs:183`): the body is `unimplemented!`, i.e. every call panics.
Panicking is modelled with `Except.error`. -/
def InputLayer.eq (_self _other : InputLayer) : Except String Bool :=
  Except.error "InputLayer only implements PartialEq to satisfy requirements of Ord"

/-- Source function `InputLayer::cmp` (`impl Ord for InputLayer<B>`,
`src/input.rs:197`): `other.modifiers.len().cmp(&self.modifiers.len())`,
so that when sorting ascending the lowest value is given to the layer with
the greatest number of modifiers. -/
def InputLayer.cmp (self other : InputLayer) : Ordering :=
  compare other.modifiers.input.length self.modifiers.input.length

/-- Modelled from the spec: the layer-match test of stroke resolution,
"select the most specific Action Layer whose modifier set is a subset of
the currently-held set" (spec section 4.1); the resolution routine itself
is not yet present under `src/`, which only declares the sorted
`bound_inputs` table (`src/tree.rs:110`). A layer matches when every one
of its modifier items is currently held. -/
def InputLayer.matches (layer : InputLayer) (held : List InputStrokeItem) : Bool :=
  layer.modifiers.input.all (fun item => held.contains item)

/-- Modelled from the spec: stroke resolution over the layer table: with
the layers pre-sorted by `InputLayer.cmp` (descending modifier-set size),
the first matching layer wins. -/
def resolveLayer (layers : List InputLayer) (held : List InputStrokeItem) :
    Option InputLayer :=
  layers.find? (fun layer => layer.matches held)

/-- Sortedness discipline `src/tree.rs:112` requires of `bound_inputs`
("Input layers have to be sorted"), stated with the source ordering
`InputLayer.cmp`: no earlier layer compares greater than a later one. -/
def layersSorted (layers : List InputLayer) : Prop :=
  layers.Pairwise (fun a b => InputLayer.cmp a b ≠ Ordering.gt)

/-- Being sorted by `InputLayer.cmp` means modifier-set sizes are
descending along the list. -/
theorem InputLayer.cmp_ne_gt_iff (a b : InputLayer) :
    InputLayer.cmp a b ≠ Ordering.gt ↔
      b.modifiers.input.length ≤ a.modifiers.input.length := by
  unfold InputLayer.cmp
  rcases Nat.lt_trichotomy b.modifiers.input.length a.modifiers.input.length
    with h | h | h
  · simp [Nat.compare_eq_lt.mpr h]
    omega
  · simp [h, Nat.compare_eq_eq.mpr rfl]
  · simp [Nat.compare_eq_gt.mpr h]
    omega

/-- Resolution on a sorted layer table always returns a layer of maximal
modifier-set size among the matching layers: the first match of a
length-descending list. -/
theorem resolveLayer_maximal (held : List InputStrokeItem) (chosen : InputLayer) :
    ∀ layers : List InputLayer, layersSorted layers →
      resolveLayer layers held = some chosen →
      ∀ layer ∈ layers, layer.matches held = true →
        layer.modifiers.input.length ≤ chosen.modifiers.input.length := by
  intro layers
  induction layers with
  | nil =>
    intro _ hres
    simp [resolveLayer] at hres
  | cons head tail ih =>
    intro hsorted hres layer hmemL hmatchL
    rw [layersSorted, List.pairwise_cons] at hsorted
    by_cases hh : head.matches held = true
    · have hch : chosen = head := by
        simp [resolveLayer, List.find?, hh] at hres
        exact hres.symm
      rcases List.mem_cons.mp hmemL with rfl | hmemT
      · simp [hch]
      · rw [hch]
        exact (InputLayer.cmp_ne_gt_iff head layer).mp (hsorted.1 layer hmemT)
    · have hres' : resolveLayer tail held = some chosen := by
        simpa [resolveLayer, List.find?, hh] using hres
      rcases List.mem_cons.mp hmemL with rfl | hmemT
      · exact absurd hmatchL hh
      · exact ih hsorted.2 hres' layer hmemT hmatchL

/-- C1 (confirmed): with the registered layer table sorted by the source
ordering `InputLayer.cmp` (descending modifier-set size), stroke
resolution picks a matching layer (its modifier set is a subset of the
held set) of maximal modifier-set size among all matching layers, and a
layer whose modifier set is a strict subset of another matching layer's
modifier set is never the one chosen. -/
theorem c1_most_specific_layer_wins
    (layers : List InputLayer) (held : List InputStrokeItem)
    (chosen : InputLayer)
    (hsorted : layersSorted layers)
    (hnodup : ∀ layer ∈ layers, layer.modifiers.input.Nodup)
    (hres : resolveLayer layers held = some chosen) :
    chosen.matches held = true ∧
    ∀ layer ∈ layers, layer.matches held = true →
      layer.modifiers.input.length ≤ chosen.modifiers.input.length ∧
      ¬ chosen.modifiers.input.toFinset ⊂ layer.modifiers.input.toFinset := by
  unfold resolveLayer at hres
  have hmatch : chosen.matches held = true := by
    simpa using List.find?_some hres
  have hmem : chosen ∈ layers := List.mem_of_find?_eq_some hres
  refine ⟨hmatch, fun layer hmemL hmatchL => ?_⟩
  have hlen : layer.modifiers.input.length ≤ chosen.modifiers.input.length :=
    resolveLayer_maximal held chosen layers hsorted hres layer hmemL hmatchL

  refine ⟨hlen, fun hsub => ?_⟩
  have h1 : chosen.modifiers.input.toFinset.card < layer.modifiers.input.toFinset.card :=
    Finset.card_lt_card hsub
  have h2 : layer.modifiers.input.toFinset.card ≤ layer.modifiers.input.length :=
    layer.modifiers.input.toFinset_card_le
  have h3 : chosen.modifiers.input.toFinset.card = chosen.modifiers.input.length :=
    List.toFinset_card_of_nodup (hnodup chosen hmem)
  omega

/-- Concrete layer for witnesses: two modifiers (a ctrl+shift-style layer). -/
def demoLayerCtrlShift : InputLayer :=
  ⟨⟨[InputStrokeItem.keyboardKey 0, InputStrokeItem.keyboardKey 1]⟩, []⟩

/-- Concrete layer for witnesses: one modifier (a ctrl-style layer). -/
def demoLayerCtrl : InputLayer :=
  ⟨⟨[InputStrokeItem.keyboardKey 0]⟩, []⟩

/-- Concrete held-item set for witnesses: both modifiers plus a trigger key. -/
def demoHeld : List InputStrokeItem :=
  [InputStrokeItem.keyboardKey 0, InputStrokeItem.keyboardKey 1,
   InputStrokeItem.keyboardKey 5]

/-- Witness for C1: on the sorted two-layer table, resolution picks the
two-modifier layer, and the one-modifier layer (a strict subset of the
chosen layer's modifiers) is never the one chosen. -/
theorem c1_most_specific_layer_wins_witness :
    demoLayerCtrlShift.matches demoHeld = true ∧
    ∀ layer ∈ [demoLayerCtrlShift, demoLayerCtrl], layer.matches demoHeld = true →
      layer.modifiers.input.length ≤ demoLayerCtrlShift.modifiers.input.length ∧
      ¬ demoLayerCtrlShift.modifiers.input.toFinset ⊂ layer.modifiers.input.toFinset :=
  c1_most_specific_layer_wins [demoLayerCtrlShift, demoLayerCtrl] demoHeld
    demoLayerCtrlShift (by unfold layersSorted; decide) (by decide) (by decide)

/-- C8 (confirmed): testing two input layers for equality always panics
(the source `PartialEq` impl is a bare `unimplemented!`), while
`InputLayer.cmp` is a total function and returns `Ordering.eq` whenever
the two layers' modifier lists have equal length — so ordering two
distinct layers of identical modifier-set size reports them as equal,
while equality-testing them aborts. -/
theorem c8_eq_panics_cmp_equal_lengths (a b : InputLayer) :
    (∃ msg, InputLayer.eq a b = Except.error msg) ∧
    (a.modifiers.input.length = b.modifiers.input.length →
      InputLayer.cmp a b = Ordering.eq) := by
  refine ⟨⟨_, rfl⟩, fun h => ?_⟩
  unfold InputLayer.cmp
  exact Nat.compare_eq_eq.mpr h.symm

/-- Witness for C8: two distinct one-modifier layers order as equal while
their equality test errors. -/
theorem c8_eq_panics_cmp_equal_lengths_witness :
    (∃ msg, InputLayer.eq demoLayerCtrl ⟨⟨[InputStrokeItem.keyboardKey 9]⟩, []⟩ =
      Except.error msg) ∧
    InputLayer.cmp demoLayerCtrl ⟨⟨[InputStrokeItem.keyboardKey 9]⟩, []⟩ =
      Ordering.eq :=
  ⟨(c8_eq_panics_cmp_equal_lengths demoLayerCtrl _).1,
   (c8_eq_panics_cmp_equal_lengths demoLayerCtrl _).2 rfl⟩

/-- Source type `HitPassthrough` (`src/node.rs:30`): a `bitflags` bitmask
stored in a `u8`. Bit 0 is `Passthrough` (point not in bounds of the node
itself), bit 1 is `PassthroughChildren` (point not in bounds of any
child); the named constant `Opaque` is the zero mask. The defined flag
universe is `bits < 4`. -/
structure HitPassthrough where
  bits : Nat
  deriving DecidableEq

namespace HitPassthrough

/-- Source constant `HitPassthrough::Opaque = 0`: the point is in bounds
of this node. -/
def opaqueMask : HitPassthrough := ⟨0⟩

/-- Source constant `HitPassthrough::Passthrough = 1`: the point is not in
bounds of this node. -/
def Passthrough : HitPassthrough := ⟨1⟩

/-- Source constant `HitPassthrough::PassthroughChildren = 2`. -/
def PassthroughChildren : HitPassthrough := ⟨2⟩

/-- Source constant `HitPassthrough::PassthroughBranch = 3`. -/
def PassthroughBranch : HitPassthrough := ⟨3⟩

/-- Source value `HitPassthrough::empty()`, generated by `bitflags`: the
mask with no bits set. -/
def emptyMask : HitPassthrough := ⟨0⟩

/-- Source value `HitPassthrough::default()`, from `#[derive(Default)]`
on the `bitflags` struct: the zero mask. -/
def defaultMask : HitPassthrough := ⟨0⟩

/-- Source function `contains`, generated by `bitflags`:
`self.bits & other.bits == other.bits`. -/
def contains (self other : HitPassthrough) : Bool :=
  self.bits &&& other.bits == other.bits

/-- Source function `union`, generated by `bitflags`: bitwise or of the
two masks. -/
def union (self other : HitPassthrough) : HitPassthrough :=
  ⟨self.bits ||| other.bits⟩

/-- Source function `HitPassthrough::in_self` (`src/node.rs:50`): true if
the queried point can be found in the node itself. -/
def in_self (self : HitPassthrough) : Bool :=
  ! self.contains Passthrough

/-- Source function `HitPassthrough::in_children` (`src/node.rs:59`):
true if the queried point may be found in the children of the node. -/
def in_children (self : HitPassthrough) : Bool :=
  ! self.contains PassthroughChildren

/-- Source function `HitPassthrough::filter` (`src/node.rs:77`): combines
the restrictions of both masks; defined as `self.union(other)`. -/
def filter (self other : HitPassthrough) : HitPassthrough :=
  self.union other

end HitPassthrough

/-- C9 (confirmed): `filter` is the bitwise union and combines
restrictions exactly — `in_self` of the union holds iff it holds of both
operands, and likewise `in_children`; the zero mask (source name `Opaque`)
is the empty mask, is the derived default, is an identity element of
`filter`, and satisfies both `in_self` and `in_children`. -/
theorem c9_hit_passthrough_filter_is_union
    (a b : HitPassthrough) (ha : a.bits < 4) (hb : b.bits < 4) :
    a.filter b = a.union b ∧
    (a.filter b).in_self = (a.in_self && b.in_self) ∧
    (a.filter b).in_children = (a.in_children && b.in_children) ∧
    HitPassthrough.opaqueMask.filter a = a ∧
    a.filter HitPassthrough.opaqueMask = a ∧
    HitPassthrough.opaqueMask = HitPassthrough.emptyMask ∧
    HitPassthrough.defaultMask = HitPassthrough.opaqueMask ∧
    HitPassthrough.opaqueMask.in_self = true ∧
    HitPassthrough.opaqueMask.in_children = true := by
  obtain ⟨xa⟩ := a
  obtain ⟨xb⟩ := b
  have ha' : xa < 4 := ha
  have hb' : xb < 4 := hb
  clear ha hb
  interval_cases xa <;> interval_cases xb <;> decide

/-- Witness for C9, at the masks `Passthrough` and `PassthroughChildren`
(their filter is `PassthroughBranch`, which is neither in self nor in
children). -/
theorem c9_hit_passthrough_filter_is_union_witness :
    HitPassthrough.Passthrough.filter HitPassthrough.PassthroughChildren =
      HitPassthrough.Passthrough.union HitPassthrough.PassthroughChildren ∧
    (HitPassthrough.Passthrough.filter HitPassthrough.PassthroughChildren).in_self =
      (HitPassthrough.Passthrough.in_self && HitPassthrough.PassthroughChildren.in_self) ∧
    (HitPassthrough.Passthrough.filter HitPassthrough.PassthroughChildren).in_children =
      (HitPassthrough.Passthrough.in_children && HitPassthrough.PassthroughChildren.in_children) ∧
    HitPassthrough.opaqueMask.filter HitPassthrough.Passthrough = HitPassthrough.Passthrough ∧
    HitPassthrough.Passthrough.filter HitPassthrough.opaqueMask = HitPassthrough.Passthrough ∧
    HitPassthrough.opaqueMask = HitPassthrough.emptyMask ∧
    HitPassthrough.defaultMask = HitPassthrough.opaqueMask ∧
    HitPassthrough.opaqueMask.in_self = true ∧
    HitPassthrough.opaqueMask.in_children = true :=
  c9_hit_passthrough_filter_is_union HitPassthrough.Passthrough
    HitPassthrough.PassthroughChildren (by decide) (by decide)

/-- Source type `StaticID` (`src/static_id.rs`): unique ID generated from
a symbol; the inner `usize` is modelled as `Nat`. -/
structure StaticID where
  id : Nat
  deriving DecidableEq

/-- Derived `Ord` of `StaticID`: compares the single `id` field. -/
def StaticID.cmp (a b : StaticID) : Ordering :=
  compare a.id b.id

/-- Source type `IOID` (`src/context.rs:81`): ID for an I/O interface. -/
structure IOID where
  id : StaticID
  deriving DecidableEq

/-- Derived `Ord` of `IOID`: compares the single `StaticID` field. -/
def IOID.cmp (a b : IOID) : Ordering :=
  StaticID.cmp a.id b.id

/-- Implementation objects (`Box<dyn IO<B>>`) are modelled as numeric
handles: equality of handles stands for pointer identity of the boxed
implementation. -/
abbrev IOImpl := Nat

/-- Source type `IOInstance<B>` (`src/context.rs:24`): an interface ID
paired with its active implementation. -/
structure IOInstance where
  id : IOID
  io : IOImpl
  deriving DecidableEq

/-- Source function `IOInstance::eq` (`impl PartialEq for IOInstance<B>`,
`src/context.rs:29`): `self.id == other.id` — the stored implementation is
ignored. -/
def IOInstance.eq (self other : IOInstance) : Bool :=
  self.id == other.id

/-- Source function `IOInstance::cmp` (`impl Ord for IOInstance<B>`,
`src/context.rs:43`): `self.id.cmp(&other.id)`. -/
def IOInstance.cmp (self other : IOInstance) : Ordering :=
  IOID.cmp self.id other.id

/-- C10 (confirmed): equality and ordering of I/O context entries are
determined solely by the interface identity `id`, ignoring the stored
implementation: `eq` returns true iff the ids are equal, and `cmp` orders
exactly as the ids order — two entries holding different implementations
for the same identity compare equal. -/
theorem c10_ioinstance_compares_by_id_only (a b : IOInstance) :
    (IOInstance.eq a b = true ↔ a.id = b.id) ∧
    (IOInstance.cmp a b = Ordering.eq ↔ a.id = b.id) ∧
    (IOInstance.cmp a b = Ordering.lt ↔ a.id.id.id < b.id.id.id) ∧
    (IOInstance.cmp a b = Ordering.gt ↔ b.id.id.id < a.id.id.id) := by
  obtain ⟨⟨⟨na⟩⟩, ia⟩ := a
  obtain ⟨⟨⟨nb⟩⟩, ib⟩ := b
  refine ⟨?_, ?_, ?_, ?_⟩
  · simp [IOInstance.eq]
  · simp only [IOInstance.cmp, IOID.cmp, StaticID.cmp]
    rw [Nat.compare_eq_eq]
    simp
  · simp only [IOInstance.cmp, IOID.cmp, StaticID.cmp]
    rw [Nat.compare_eq_lt]
  · simp only [IOInstance.cmp, IOID.cmp, StaticID.cmp]
    rw [Nat.compare_eq_gt]

/-- Witness for C10: entries with the same identity but different
implementation handles test equal and order as `Ordering.eq`. -/
theorem c10_ioinstance_compares_by_id_only_witness :
    IOInstance.eq ⟨⟨⟨7⟩⟩, 1⟩ ⟨⟨⟨7⟩⟩, 2⟩ = true ∧
    IOInstance.cmp ⟨⟨⟨7⟩⟩, 1⟩ ⟨⟨⟨7⟩⟩, 2⟩ = Ordering.eq :=
  ⟨(c10_ioinstance_compares_by_id_only ⟨⟨⟨7⟩⟩, 1⟩ ⟨⟨⟨7⟩⟩, 2⟩).1.mpr rfl,
   (c10_ioinstance_compares_by_id_only ⟨⟨⟨7⟩⟩, 1⟩ ⟨⟨⟨7⟩⟩, 2⟩).2.1.mpr rfl⟩

/-- Source type `TreeIOContext<B>` (`src/context.rs:58`): key-value pairs
of active I/O systems, each pair an `IOInstance` (interface ID plus
implementation), with at most one active implementation per identity;
modelled as the list of pairs. -/
structure TreeIOContext where
  active_ios : List IOInstance

/-- Modelled from the spec: `current(identity)`, the lookup half of the
I/O Context Stack — the active implementation for an interface identity,
absent (`none`) when no implementation is active; `src/context.rs` only
declares the storage (`active_ios`) and describes `replace` in its doc
comment, with no method bodies under `src/`. -/
def TreeIOContext.current (s : TreeIOContext) (id : IOID) : Option IOImpl :=
  (s.active_ios.find? (fun inst => inst.id == id)).map (fun inst => inst.io)

/-- Modelled from the spec: `replace(identity, new_impl) -> old_impl`, the
sole mutator of the I/O Context Stack (`src/context.rs:52`: "`replace`
takes the new I/O systems, but returns the one set previously"). Passing
`none` clears the slot, so that restoring with a previously-returned
absent value removes the override. -/
def TreeIOContext.replace (s : TreeIOContext) (id : IOID) (newImpl : Option IOImpl) :
    Option IOImpl × TreeIOContext :=
  let old := s.current id
  let removed := s.active_ios.filter (fun inst => ! (inst.id == id))
  match newImpl with
  | none => (old, ⟨removed⟩)
  | some impl => (old, ⟨⟨id, impl⟩ :: removed⟩)

/-- After removing every entry of an identity, lookup of that identity is
absent. -/
theorem TreeIOContext.current_filter_ne (l : List IOInstance) (id : IOID) :
    TreeIOContext.current ⟨l.filter (fun inst => ! (inst.id == id))⟩ id = none := by
  unfold TreeIOContext.current
  rw [Option.map_eq_none', List.find?_eq_none]
  intro inst hmem
  have := (List.mem_filter.mp hmem).2
  simpa using this

/-- C7 (confirmed): for every identity and every context state, the pair
`old = replace(id, new); replace(id, old)` leaves `current(id)` exactly as
it was before the pair; and `current` on an identity with no active
implementation returns an absent value (`none`), not an error. -/
theorem c7_replace_restore_roundtrip
    (s : TreeIOContext) (id : IOID) (newImpl : Option IOImpl) :
    (((s.replace id newImpl).2.replace id (s.replace id newImpl).1).2.current id
       = s.current id) ∧
    ((∀ inst ∈ s.active_ios, inst.id ≠ id) → s.current id = none) := by
  constructor
  · rcases hold : s.current id with _ | oldImpl
    · cases newImpl with
      | none =>
        simp only [TreeIOContext.replace, hold]
        rw [List.filter_filter]
        simpa using TreeIOContext.current_filter_ne s.active_ios id
      | some impl =>
        simp only [TreeIOContext.replace, hold]
        rw [List.filter_cons]
        simp only [beq_self_eq_true, Bool.not_true, Bool.false_eq_true, if_neg,
          reduceIte, List.filter_filter]
        simpa using TreeIOContext.current_filter_ne s.active_ios id
    · cases newImpl with
      | none =>
        simp only [TreeIOContext.replace, hold]
        simp [TreeIOContext.current, List.find?]
      | some impl =>
        simp only [TreeIOContext.replace, hold]
        simp [TreeIOContext.current, List.find?]
  · intro habsent
    unfold TreeIOContext.current
    rw [Option.map_eq_none', List.find?_eq_none]
    intro inst hmem
    simpa using habsent inst hmem

/-- Witness for C7: a one-entry context; replacing identity 4 (absent) and
restoring leaves `current` unchanged, and `current` of the absent
identity 4 is `none`. -/
theorem c7_replace_restore_roundtrip_witness :
    ((TreeIOContext.replace ⟨[⟨⟨⟨3⟩⟩, 5⟩]⟩ ⟨⟨4⟩⟩ (some 9)).2.replace ⟨⟨4⟩⟩
        (TreeIOContext.replace ⟨[⟨⟨⟨3⟩⟩, 5⟩]⟩ ⟨⟨4⟩⟩ (some 9)).1).2.current ⟨⟨4⟩⟩
      = TreeIOContext.current ⟨[⟨⟨⟨3⟩⟩, 5⟩]⟩ ⟨⟨4⟩⟩ ∧
    TreeIOContext.current ⟨[⟨⟨⟨3⟩⟩, 5⟩]⟩ ⟨⟨4⟩⟩ = none :=
  ⟨(c7_replace_restore_roundtrip ⟨[⟨⟨⟨3⟩⟩, 5⟩]⟩ ⟨⟨4⟩⟩ (some 9)).1,
   (c7_replace_restore_roundtrip ⟨[⟨⟨⟨3⟩⟩, 5⟩]⟩ ⟨⟨4⟩⟩ (some 9)).2 (by decide)⟩

/-- Source type `TreeAction<B>` (`src/tree.rs:44`): a scheduled tree-walk
action. The `start_node` reference and the `finished` callback are
modelled as numeric handles; `in_tree` ("set to true once `before_tree`
is called, set to `false` afterwards") marks an action that is mid-walk,
i.e. started and not yet completed. -/
structure TreeAction where
  start_node : Nat
  to_stop : Bool
  generation : Int
  finished : Nat
  in_start_node : Bool
  in_tree : Bool
  deriving DecidableEq

/-- Modelled from the spec: stopping a Traversal Scheduler action. Every
stop bumps `generation` (doc of `TreeAction::generation`,
`src/tree.rs:54`: "every start and every stop bumps the generation
number"); the action is marked complete (`to_stop`) and leaves the tree.
The start/stop routines themselves are not yet under `src/`. -/
def TreeAction.stop (a : TreeAction) : TreeAction :=
  { a with generation := a.generation + 1, to_stop := true, in_tree := false }

/-- Modelled from the spec: (re)starting a Traversal Scheduler action. A
start on an action that is still mid-walk first performs the implicit
stop, then the start; every start bumps `generation`. -/
def TreeAction.start (a : TreeAction) : TreeAction :=
  let stopped := if a.in_tree then a.stop else a
  { stopped with
      generation := stopped.generation + 1, to_stop := false, in_tree := true }

/-- Modelled from the spec: the generation check a scheduled continuation
performs before resuming (doc of `TreeAction::generation`,
`src/tree.rs:58`: "if the number is greater than the one the runner
stored at the time it was scheduled, it will stop running"). Returns true
when the continuation may execute. -/
def continuationRuns (captured live : Int) : Bool :=
  ! decide (captured < live)

/-- C3 (confirmed): a fresh start bumps the generation once; restarting an
action before it completes (`in_tree` still true) strictly increments its
generation twice — once for the implicit stop, once for the new start —
and every continuation whose captured generation is at most the
pre-restart value compares it against the live value and never executes
after the restart. -/
theorem c3_restart_bumps_generation_twice (a : TreeAction) :
    (a.in_tree = false → a.start.generation = a.generation + 1) ∧
    (a.in_tree = true →
      a.start.generation = a.generation + 2 ∧
      ∀ captured : Int, captured ≤ a.generation →
        continuationRuns captured a.start.generation = false) := by
  constructor
  · intro h
    simp [TreeAction.start, TreeAction.stop, h]
  · intro h
    constructor
    · simp [TreeAction.start, TreeAction.stop, h]
      omega
    · intro captured hcap
      simp [continuationRuns, TreeAction.start, TreeAction.stop, h]
      omega

/-- Witness for C3: a concrete mid-walk action at generation 1; restarting
it yields generation 3 and abandons a continuation captured at 1. -/
theorem c3_restart_bumps_generation_twice_witness :
    (TreeAction.start ⟨0, false, 1, 0, true, true⟩).generation = 3 ∧
    continuationRuns 1 (TreeAction.start ⟨0, false, 1, 0, true, true⟩).generation
      = false :=
  ⟨((c3_restart_bumps_generation_twice ⟨0, false, 1, 0, true, true⟩).2 rfl).1,
   ((c3_restart_bumps_generation_twice ⟨0, false, 1, 0, true, true⟩).2 rfl).2 1
     (by decide)⟩

/-- Source type `RunningAction<B>` (`src/context.rs:85`): a live entry of
the Traversal Scheduler — the action plus the generation it was started
with. -/
structure RunningAction where
  action : TreeAction
  generation : Int
  deriving DecidableEq

/-- Source type `TreeActionContext<B>` (`src/context.rs:91`): the set of
currently running actions plus the number of running iterators. -/
structure TreeActionContext where
  actions : List RunningAction
  running_iterators : Int
  deriving DecidableEq

/-- Modelled from the spec: the deferred-removal step of the Traversal
Scheduler. Finished or stopped entries (`to_stop` set; `src/tree.rs:50`:
"if true, this action is complete") are removed from the live set only if
there is exactly one running iterator (doc of `running_iterators`,
`src/context.rs:95`: "removing tree actions will only happen if there is
exactly one running iterator, as to not break the other ones"); the
removal routine itself is not yet under `src/`. -/
def TreeActionContext.removeFinished (ctx : TreeActionContext) : TreeActionContext :=
  if ctx.running_iterators == 1 then
    { ctx with actions := ctx.actions.filter (fun ra => ! ra.action.to_stop) }
  else ctx

/-- C4 (confirmed): a finished or stopped running action is removed from
the live set only when exactly one iterator is running; while a nested
traversal is active (more than one running iterator) the removal step
leaves the whole context — in particular the live set — untouched, so a
nested iteration never observes the collection change underneath it. -/
theorem c4_removal_deferred_under_nested_iteration (ctx : TreeActionContext) :
    (1 < ctx.running_iterators → ctx.removeFinished = ctx) ∧
    (ctx.running_iterators ≠ 1 → ctx.removeFinished.actions = ctx.actions) ∧
    (ctx.running_iterators = 1 →
      ctx.removeFinished.actions =
        ctx.actions.filter (fun ra => ! ra.action.to_stop)) := by
  refine ⟨fun h => ?_, fun h => ?_, fun h => ?_⟩
  · have : (ctx.running_iterators == 1) = false := by
      simp only [beq_eq_false_iff_ne]
      omega
    simp [TreeActionContext.removeFinished, this]
  · have : (ctx.running_iterators == 1) = false := by
      simpa using h
    simp [TreeActionContext.removeFinished, this]
  · simp [TreeActionContext.removeFinished, h]

/-- Witness for C4: with two running iterators, a context holding one
stopped action keeps it; with one iterator, the stopped action is removed. -/
theorem c4_removal_deferred_under_nested_iteration_witness :
    TreeActionContext.removeFinished ⟨[⟨⟨0, true, 1, 0, true, false⟩, 1⟩], 2⟩ =
      ⟨[⟨⟨0, true, 1, 0, true, false⟩, 1⟩], 2⟩ ∧
    (TreeActionContext.removeFinished ⟨[⟨⟨0, true, 1, 0, true, false⟩, 1⟩], 1⟩).actions
      = [] :=
  ⟨(c4_removal_deferred_under_nested_iteration
      ⟨[⟨⟨0, true, 1, 0, true, false⟩, 1⟩], 2⟩).1 (by decide),
   by
     rw [(c4_removal_deferred_under_nested_iteration
       ⟨[⟨⟨0, true, 1, 0, true, false⟩, 1⟩], 1⟩).2.2 rfl]
     decide⟩

/-- Source type `InputEventCode` (`src/action.rs:58`): an I/O interface ID
plus an event code, uniquely identifying a key, button or gesture. -/
structure InputEventCode where
  io_id : IOID
  event : Int
  deriving DecidableEq

/-- Source type `InputEvent` (`src/action.rs:79`): an event from an input
device; `is_active` marks the one frame that should trigger actions. -/
structure InputEvent where
  code : InputEventCode
  is_active : Bool
  deriving DecidableEq

/-- One buffered `emit_event` submission: the event, the pass-through
`number` and a handle standing for the callback closure. -/
structure PendingEvent where
  event : InputEvent
  number : Int
  callback : Nat
  deriving DecidableEq

/-- A logged callback invocation: which callback ran, for which event and
number. -/
structure FiredCall where
  callback : Nat
  event : InputEvent
  number : Int
  deriving DecidableEq

/-- Modelled from the spec: the per-frame state of the Action Emission
Buffer (`ActionIO`); `src/action.rs:24` declares `emit_event` as a trait
method whose protocol ("withhold all input actions until after its node
is drawn", then trigger callbacks and discard saved events) lives only in
documentation, with no implementation under `src/`. `fired` is the log of
callback invocations so far; `tree_walked` records whether this frame's
node tree has been fully walked. -/
structure ActionIOState where
  buffer : List PendingEvent
  fired : List FiredCall
  tree_walked : Bool
  deriving DecidableEq

/-- Modelled from the spec: `emit_event` stores the event, number and
callback without invoking the callback. -/
def ActionIOState.emit_event (s : ActionIOState) (e : InputEvent) (number : Int)
    (callback : Nat) : ActionIOState :=
  { s with buffer := s.buffer ++ [⟨e, number, callback⟩] }

/-- Modelled from the spec: the frame's full node-tree walk, during which
input-handling nodes register their eligibility; no buffered event is
resolved and no callback fires during the walk. -/
def ActionIOState.walkTree (s : ActionIOState) : ActionIOState :=
  { s with tree_walked := true }

/-- Modelled from the spec: the single per-frame resolution pass.
Withheld until the tree has been fully walked; then every stored event
that triggered an input action (the frame's bindings are abstracted as
the `triggers` predicate) has its callback invoked, and the whole buffer
is discarded unconditionally. -/
def ActionIOState.resolveEvents (s : ActionIOState)
    (triggers : PendingEvent → Bool) : ActionIOState :=
  if s.tree_walked then
    { s with
        fired := s.fired ++
          (s.buffer.filter triggers).map (fun p => ⟨p.callback, p.event, p.number⟩),
        buffer := [],
        tree_walked := false }
  else s

/-- Modelled from the spec: one frame: walk the node tree fully, then run
the resolution pass. -/
def ActionIOState.runFrame (s : ActionIOState)
    (triggers : PendingEvent → Bool) : ActionIOState :=
  (s.walkTree).resolveEvents triggers

/-- C5 (confirmed): submitting an event with `emit_event` never invokes
its callback at submission time; the resolution pass is withheld until the
tree walk is complete; running a frame resolves the stored events in a
single pass after the walk and then discards every buffered event
unconditionally, so a later frame with no new submissions can fire
nothing. -/
theorem c5_events_buffered_resolved_once_then_discarded
    (s : ActionIOState) (e : InputEvent) (number : Int) (callback : Nat)
    (triggers triggersNext : PendingEvent → Bool) :
    ((s.emit_event e number callback).fired = s.fired) ∧
    (s.tree_walked = false → s.resolveEvents triggers = s) ∧
    ((s.runFrame triggers).fired = s.fired ++
      (s.buffer.filter triggers).map (fun p => ⟨p.callback, p.event, p.number⟩)) ∧
    ((s.runFrame triggers).buffer = []) ∧
    (((s.runFrame triggers).runFrame triggersNext).fired
      = (s.runFrame triggers).fired) := by
  refine ⟨rfl, fun h => ?_, ?_, ?_, ?_⟩
  · simp [ActionIOState.resolveEvents, h]
  · simp [ActionIOState.runFrame, ActionIOState.resolveEvents, ActionIOState.walkTree]
  · simp [ActionIOState.runFrame, ActionIOState.resolveEvents, ActionIOState.walkTree]
  · simp [ActionIOState.runFrame, ActionIOState.resolveEvents, ActionIOState.walkTree]

/-- Witness for C5 at a concrete one-event state: the un-walked state is
left untouched by resolution, and a frame fires the event's callback once
and empties the buffer. -/
theorem c5_events_buffered_resolved_once_then_discarded_witness :
    ((ActionIOState.emit_event ⟨[], [], false⟩ ⟨⟨⟨⟨0⟩⟩, 2⟩, true⟩ 7 3).fired = []) ∧
    (ActionIOState.resolveEvents ⟨[⟨⟨⟨⟨⟨0⟩⟩, 2⟩, true⟩, 7, 3⟩], [], false⟩
        (fun _ => true) = ⟨[⟨⟨⟨⟨⟨0⟩⟩, 2⟩, true⟩, 7, 3⟩], [], false⟩) ∧
    ((ActionIOState.runFrame ⟨[⟨⟨⟨⟨⟨0⟩⟩, 2⟩, true⟩, 7, 3⟩], [], false⟩
        (fun _ => true)).fired = [⟨3, ⟨⟨⟨⟨0⟩⟩, 2⟩, true⟩, 7⟩]) ∧
    ((ActionIOState.runFrame ⟨[⟨⟨⟨⟨⟨0⟩⟩, 2⟩, true⟩, 7, 3⟩], [], false⟩
        (fun _ => true)).buffer = []) := by
  have h := c5_events_buffered_resolved_once_then_discarded
    ⟨[⟨⟨⟨⟨⟨0⟩⟩, 2⟩, true⟩, 7, 3⟩], [], false⟩ ⟨⟨⟨⟨0⟩⟩, 2⟩, true⟩ 7 3
    (fun _ => true) (fun _ => true)
  have h0 := c5_events_buffered_resolved_once_then_discarded
    ⟨[], [], false⟩ ⟨⟨⟨⟨0⟩⟩, 2⟩, true⟩ 7 3 (fun _ => true) (fun _ => true)
  exact ⟨h0.1, h.2.1 rfl, by rw [h.2.2.1]; decide, h.2.2.2.1⟩

/-- Source type `WithPriority<B>` (`src/tree.rs:4`): a directional focus
candidate: its tree-distance priority, the square of its distance from
the focused node (an `f32` in the source, modelled as a rational), and
the node (a boxed trait object, modelled as a handle). -/
structure WithPriority where
  priority : Int
  distance2 : ℚ
  node : Nat
  deriving DecidableEq

/-- Modelled from the spec: positional candidate selection of the Focus
Navigation Tracker — "picks, for each side, the candidate with the
highest priority, breaking ties by the smaller squared Euclidean distance
to the focused node's last known layout box" (spec section 3); the walk
code filling `positional` is not yet under `src/`, which declares only
the `WithPriority` slots. Given the current best candidate for a side (if
any) and a new candidate, returns the better of the two. -/
def pickCandidate (cur : Option WithPriority) (cand : WithPriority) :
    Option WithPriority :=
  match cur with
  | none => some cand
  | some best =>
    if best.priority < cand.priority then some cand
    else if cand.priority == best.priority then
      if cand.distance2 < best.distance2 then some cand else some best
    else some best

/-- C6 (confirmed): between two directional focus candidates for the same
side, the one with the higher priority is selected regardless of
distance; at equal priority the one with the smaller squared Euclidean
distance is selected (squared distance is compared directly, never a
square root). -/
theorem c6_directional_candidate_selection (a b : WithPriority) :
    (a.priority < b.priority → pickCandidate (some a) b = some b) ∧
    (b.priority < a.priority → pickCandidate (some a) b = some a) ∧
    (a.priority = b.priority → b.distance2 < a.distance2 →
      pickCandidate (some a) b = some b) ∧
    (a.priority = b.priority → a.distance2 ≤ b.distance2 →
      pickCandidate (some a) b = some a) := by
  refine ⟨fun h => ?_, fun h => ?_, fun hp hd => ?_, fun hp hd => ?_⟩
  · simp [pickCandidate, h]
  · have h1 : ¬ a.priority < b.priority := by omega
    have h2 : (b.priority == a.priority) = false := by
      simp only [beq_eq_false_iff_ne]
      omega
    simp [pickCandidate, h1, h2]
  · have h1 : ¬ a.priority < b.priority := by omega
    have h2 : (b.priority == a.priority) = true := by
      simp only [beq_iff_eq]
      omega
    simp [pickCandidate, h1, h2, hd]
  · have h1 : ¬ a.priority < b.priority := by omega
    have h2 : (b.priority == a.priority) = true := by
      simp only [beq_iff_eq]
      omega
    have h3 : ¬ b.distance2 < a.distance2 := not_lt.mpr hd
    simp [pickCandidate, h1, h2, h3]

/-- Witness for C6 at the spec's numbers: with equal priorities, distance
100 beats distance 400; with priorities 5 against 3, the priority-5
candidate wins regardless of its larger distance. -/
theorem c6_directional_candidate_selection_witness :
    pickCandidate (some ⟨2, 400, 0⟩) ⟨2, 100, 1⟩ = some ⟨2, 100, 1⟩ ∧
    pickCandidate (some ⟨5, 400, 0⟩) ⟨3, 100, 1⟩ = some ⟨5, 400, 0⟩ :=
  ⟨(c6_directional_candidate_selection ⟨2, 400, 0⟩ ⟨2, 100, 1⟩).2.2.1 rfl
     (by norm_num),
   (c6_directional_candidate_selection ⟨5, 400, 0⟩ ⟨3, 100, 1⟩).2.1 (by norm_num)⟩

/-- Source type `Side` (`src/style.rs`). -/
inductive Side where
  | left
  | right
  | top
  | bottom
  deriving DecidableEq

/-- Source type `SideArray<T>` (`src/style.rs`): one value per box side,
in order `[left, right, top, bottom]`. -/
structure SideArray (α : Type) where
  left : α
  right : α
  top : α
  bottom : α
  deriving DecidableEq

/-- Source function `SideArray::side`: indexing by `Side`. -/
def SideArray.side (arr : SideArray α) : Side → α
  | Side.left => arr.left
  | Side.right => arr.right
  | Side.top => arr.top
  | Side.bottom => arr.bottom

/-- Source function `SideArray::side_mut` used as an update: writing one
side's slot. -/
def SideArray.setSide (arr : SideArray α) (s : Side) (v : α) : SideArray α :=
  match s with
  | Side.left => { arr with left := v }
  | Side.right => { arr with right := v }
  | Side.top => { arr with top := v }
  | Side.bottom => { arr with bottom := v }

/-- Source type `Rectangle` (`src/backend/mod.rs`); the `f32` fields are
modelled as rationals. -/
structure Rectangle where
  x : ℚ
  y : ℚ
  width : ℚ
  height : ℚ
  deriving DecidableEq

/-- Source type `FocusDirection<B>` (`src/tree.rs:15`): the Focus
Navigation Tracker. The candidate fields are modelled as optional node
handles, following the spec's data model ("prev, next, first, last:
optional node ref", "all fields stay absent" with no focusable node); the
Rust skeleton declares them as bare `Box<dyn Focusable<B>>` placeholders,
and the tracker rebuild that fills them is not yet under `src/`.
`priority_direction` is `1` until the focused node is found and `-1`
afterwards. -/
structure FocusDirection where
  last_focus_box : Rectangle
  prev : Option Nat
  next : Option Nat
  first : Option Nat
  last : Option Nat
  positional : SideArray (Option WithPriority)
  priority : Int
  priority_direction : Int
  depth : Nat
  deriving DecidableEq

/-- One node visit as observed by the tracker during a tree walk: the
node's handle, whether the node is focusable, whether it is the currently
focused node, and the side / priority / squared-distance data its layout
box yields relative to the previous pass's focus box. -/
structure FocusVisit where
  node : Nat
  focusable : Bool
  is_focused : Bool
  side : Side
  priority : Int
  distance2 : ℚ
  deriving DecidableEq

/-- Modelled from the spec: the tracker state at the start of a pass —
rebuilt from empty, every candidate field absent, priority `0`, direction
`1`; `box0` is the focus box snapshot from the previous completed pass. -/
def FocusDirection.startWalk (box0 : Rectangle) : FocusDirection :=
  { last_focus_box := box0
    prev := none
    next := none
    first := none
    last := none
    positional := ⟨none, none, none, none⟩
    priority := 0
    priority_direction := 1
    depth := 0 }

/-- Modelled from the spec: the Focus Navigation Tracker update for one
visited node (spec section 4.4): a non-focusable node leaves the tracker
unchanged; for a focusable node, `first`/`last` track the first and last
focusable node in traversal order unconditionally, `prev` tracks the last
focusable node seen before the focused one, `next` the first seen after
(`priority_direction` flips to `-1` at the focused node), and the node's
side slot of `positional` keeps the better candidate per
`pickCandidate`. -/
def FocusDirection.visit (fd : FocusDirection) (e : FocusVisit) : FocusDirection :=
  if e.focusable then
    let fd1 : FocusDirection :=
      { fd with
          first := if fd.first.isNone then some e.node else fd.first
          last := some e.node
          positional := fd.positional.setSide e.side
            (pickCandidate (fd.positional.side e.side)
              ⟨e.priority, e.distance2, e.node⟩) }
    if e.is_focused then
      { fd1 with priority_direction := -1 }
    else if fd1.priority_direction > 0 then
      { fd1 with prev := some e.node }
    else
      { fd1 with next := if fd1.next.isNone then some e.node else fd1.next }
  else fd

/-- Modelled from the spec: completing the pass — sequential navigation
wraps: "if the focused node is first/last, `prev`/`next` wrap using
`last`/`first`" (spec section 4.4), i.e. an absent `prev` falls back to
the last focusable node and an absent `next` to the first. -/
def FocusDirection.finishWalk (fd : FocusDirection) : FocusDirection :=
  { fd with
      prev := if fd.prev.isNone then fd.last else fd.prev
      next := if fd.next.isNone then fd.first else fd.next }

/-- Modelled from the spec: one complete tracker rebuild over a frame's
walk, visiting the nodes in traversal order. -/
def runFocusWalk (box0 : Rectangle) (visits : List FocusVisit) : FocusDirection :=
  (visits.foldl FocusDirection.visit (FocusDirection.startWalk box0)).finishWalk

/-- Modelled from the spec: `focus_next()` — consult the tracker; an
absent candidate means the request is a no-op (`none`), never an error. -/
def FocusDirection.focusNext (fd : FocusDirection) : Option Nat :=
  fd.next

/-- Modelled from the spec: `focus_previous()`. -/
def FocusDirection.focusPrevious (fd : FocusDirection) : Option Nat :=
  fd.prev

/-- Modelled from the spec: `focus_direction(side)` — the best positional
candidate for the side, absent when there is none. -/
def FocusDirection.focusDir (fd : FocusDirection) (s : Side) : Option Nat :=
  (fd.positional.side s).map (fun c => c.node)

/-- Visiting a non-focusable node leaves the tracker unchanged. -/
theorem FocusDirection.visit_not_focusable (fd : FocusDirection) (e : FocusVisit)
    (h : e.focusable = false) : fd.visit e = fd := by
  simp [FocusDirection.visit, h]

/-- A walk segment containing no focusable node leaves the tracker
unchanged. -/
theorem foldl_visit_no_focusable (visits : List FocusVisit) :
    ∀ fd : FocusDirection, (∀ e ∈ visits, e.focusable = false) →
      visits.foldl FocusDirection.visit fd = fd := by
  induction visits with
  | nil => intro fd _; rfl
  | cons head tail ih =>
    intro fd h
    rw [List.foldl_cons,
      FocusDirection.visit_not_focusable fd head (h head (List.mem_cons_self head tail))]
    exact ih fd (fun e he => h e (List.mem_cons_of_mem head he))

/-- C2 (confirmed): after a completed tree walk over a tree with zero
focusable nodes, every candidate field of the Focus Navigation Tracker —
`prev`, `next`, `first`, `last` and each per-side positional slot — is
absent, and the focus-navigation requests are no-ops returning `none`,
never errors; after a walk over a tree with exactly one focusable node,
`first`, `last`, `prev` and `next` all equal that node (a self-loop in
tab order). -/
theorem c2_tracker_zero_and_one_focusable
    (box0 : Rectangle) (visits pre post : List FocusVisit) (e : FocusVisit)
    (hzero : ∀ v ∈ visits, v.focusable = false)
    (hpre : ∀ v ∈ pre, v.focusable = false)
    (hpost : ∀ v ∈ post, v.focusable = false)
    (hfoc : e.focusable = true) :
    ((runFocusWalk box0 visits).prev = none ∧
     (runFocusWalk box0 visits).next = none ∧
     (runFocusWalk box0 visits).first = none ∧
     (runFocusWalk box0 visits).last = none ∧
     (∀ s, (runFocusWalk box0 visits).positional.side s = none) ∧
     (runFocusWalk box0 visits).focusNext = none ∧
     (runFocusWalk box0 visits).focusPrevious = none ∧
     (∀ s, (runFocusWalk box0 visits).focusDir s = none)) ∧
    ((runFocusWalk box0 (pre ++ e :: post)).first = some e.node ∧
     (runFocusWalk box0 (pre ++ e :: post)).last = some e.node ∧
     (runFocusWalk box0 (pre ++ e :: post)).prev = some e.node ∧
     (runFocusWalk box0 (pre ++ e :: post)).next = some e.node) := by
  constructor
  · rw [runFocusWalk, foldl_visit_no_focusable visits _ hzero]
    refine ⟨rfl, rfl, rfl, rfl, fun s => ?_, rfl, rfl, fun s => ?_⟩
    · cases s <;> rfl
    · cases s <;> rfl
  · rw [runFocusWalk, List.foldl_append, foldl_visit_no_focusable pre _ hpre,
      List.foldl_cons, foldl_visit_no_focusable post _ hpost]
    rcases hf : e.is_focused with _ | _
    · simp [FocusDirection.visit, FocusDirection.startWalk, hfoc, hf,
        FocusDirection.finishWalk]
    · simp [FocusDirection.visit, FocusDirection.startWalk, hfoc, hf,
        FocusDirection.finishWalk]

/-- Witness for C2: a walk over one non-focusable node leaves every
tracker field absent, and a walk over one focused focusable node between
two non-focusable ones yields the self-loop. -/
theorem c2_tracker_zero_and_one_focusable_witness :
    ((runFocusWalk ⟨0, 0, 0, 0⟩ [⟨4, false, false, Side.left, 0, 0⟩]).first
       = none ∧
     (runFocusWalk ⟨0, 0, 0, 0⟩ [⟨4, false, false, Side.left, 0, 0⟩]).focusNext
       = none) ∧
    ((runFocusWalk ⟨0, 0, 0, 0⟩
        [⟨4, false, false, Side.left, 0, 0⟩,
         ⟨1, true, true, Side.left, 0, 0⟩,
         ⟨6, false, false, Side.top, 0, 0⟩]).prev = some 1 ∧
     (runFocusWalk ⟨0, 0, 0, 0⟩
        [⟨4, false, false, Side.left, 0, 0⟩,
         ⟨1, true, true, Side.left, 0, 0⟩,
         ⟨6, false, false, Side.top, 0, 0⟩]).next = some 1) := by
  have h := c2_tracker_zero_and_one_focusable ⟨0, 0, 0, 0⟩
    [⟨4, false, false, Side.left, 0, 0⟩]
    [⟨4, false, false, Side.left, 0, 0⟩]
    [⟨6, false, false, Side.top, 0, 0⟩]
    ⟨1, true, true, Side.left, 0, 0⟩
    (by decide) (by decide) (by decide) rfl
  exact ⟨⟨h.1.2.2.1, h.1.2.2.2.2.2.1⟩, ⟨h.2.2.2.1, h.2.2.2.2⟩⟩

end AmityUI
